import Mathlib

/-!
Verification development for the OpenMP directive legality validator and
data-sharing / dependence analysis engine of a source-to-source compiler
middle end (PSyIR OpenMP directives and the array-access mixin).

The definitions below are a shallow embedding, translated from
src/psyclone/psyir/nodes/omp_directives.py and
src/psyclone/psyir/nodes/array_mixin.py.  Python in-place list mutation is
modelled by explicit state passing; Python exceptions are modelled by the
Except monad with the PsyError type below.
-/

/-- Errors raised by the analysis engine.  GenerationError and InternalError
are the exception classes of the source; valueError, nameError,
assertionError and indexError model the corresponding Python built-in
exceptions that the source can raise (ValueError from index validation,
NameError from reading an unbound local, AssertionError from a bare
assert False, IndexError from indexing an empty child list). -/
inductive PsyError where
  | generationError (msg : String)
  | internalError (msg : String)
  | valueError
  | nameError
  | assertionError
  | indexError
  deriving Repr, DecidableEq

/-! ## Task-directive model

Nodes that can appear below an OMPTaskDirective, as discriminated by the
isinstance checks of OMPTaskDirective.handle_readonly_reference,
handle_binary_op and compute_clauses.  Each constructor corresponds to one
concrete PSyIR class; ArrayReference, ArrayOfStructuresReference and
StructureReference are subclasses of Reference in the source, which is
reflected in the walk function below.  StructureReference members carrying
their own index expressions are not needed by the analysed routines and are
modelled by the bare symbol name. -/

/-- Binary operators distinguished by handle_binary_op: ADD and SUB are
accepted; mul stands for any other operator (the source rejects every
operator that is not ADD or SUB). -/
inductive Op where
  | add
  | sub
  | mul
  deriving Repr, DecidableEq

/-- PSyIR nodes appearing in task-region expressions. -/
inductive TNode where
  | literal (value : String)
  | reference (name : String)
  | arrayReference (name : String) (indices : List TNode)
  | structureReference (name : String)
  | aosReference (name : String) (indices : List TNode)
  | binaryOperation (op : Op) (lhs rhs : TNode)

/-- Fortran rendering of an operator, as produced by the out-of-scope
backend writer. -/
def opString : Op → String
  | Op.add => " + "
  | Op.sub => " - "
  | Op.mul => " * "

/-- Comma-space join, the Python expression sep.join(xs) with sep a comma
followed by a space. -/
def joinCommaSp : List String → String
  | [] => ""
  | [x] => x
  | x :: xs => x ++ ", " ++ joinCommaSp xs

mutual
/-- Modelled from the spec: the backend FortranWriter (an external
collaborator of the analysed engine) rendering a PSyIR node to text.
Deterministic recursive rendering of the node tree. -/
def writerT : TNode → String
  | TNode.literal v => v
  | TNode.reference n => n
  | TNode.structureReference n => n
  | TNode.arrayReference n idxs => n ++ "(" ++ writerTList idxs ++ ")"
  | TNode.aosReference n idxs => n ++ "(" ++ writerTList idxs ++ ")"
  | TNode.binaryOperation op a b => writerT a ++ opString op ++ writerT b

/-- Renders a comma-separated index list. -/
def writerTList : List TNode → String
  | [] => ""
  | [x] => writerT x
  | x :: xs => writerT x ++ "," ++ writerTList xs
end

/-- True for the node classes matched by
isinstance(ref, (ArrayReference, ArrayOfStructuresReference)). -/
def isArrayLikeRef : TNode → Bool
  | TNode.arrayReference _ _ => true
  | TNode.aosReference _ _ => true
  | _ => false

mutual
/-- The node.walk(Reference) traversal: collects, in depth-first preorder,
every node that is an instance of Reference (plain references, array
references, structure references and array-of-structures references). -/
def walkRefs : TNode → List TNode
  | TNode.literal _ => []
  | TNode.reference n => [TNode.reference n]
  | TNode.structureReference n => [TNode.structureReference n]
  | TNode.arrayReference n idxs =>
      TNode.arrayReference n idxs :: walkRefsList idxs
  | TNode.aosReference n idxs =>
      TNode.aosReference n idxs :: walkRefsList idxs
  | TNode.binaryOperation _ a b => walkRefs a ++ walkRefs b

/-- walkRefs over a list of children, left to right. -/
def walkRefsList : List TNode → List TNode
  | [] => []
  | x :: xs => walkRefs x ++ walkRefsList xs
end

/-- The five clause lists built up by OMPTaskDirective.compute_clauses.
The source mutates Python lists in place; here each step returns the
updated record. -/
structure ClauseLists where
  privateList : List String
  firstprivateList : List String
  sharedList : List String
  inList : List String
  outList : List String
  deriving Repr, DecidableEq

/-- OMPTaskDirective.handle_binary_op.  The source takes the BinaryOperation
node; callers have already established it is a BinaryOperation, so the
operator and the two children are passed directly.  Returns the updated
(index_strings, firstprivate_list) pair, the two lists the source mutates.
private_list and parallel_private are read only. -/
def handleBinaryOp (op : Op) (c0 c1 : TNode)
    (indexStrings firstprivateList privateList parallelPrivate : List String)
    (startVal stopVal : TNode) :
    Except PsyError (List String × List String) :=
  if op ≠ Op.add ∧ op ≠ Op.sub then
    Except.error (PsyError.generationError
      "Binary Operator of unsupported type used as an index inside an OMPTaskDirective which is not supported")
  else
    -- the source requires exactly one child of exact type Reference and one
    -- of exact type Literal, in either order
    match c0, c1 with
    | TNode.reference indexName, TNode.literal _ | TNode.literal _, TNode.reference indexName =>
        if indexName ∈ parallelPrivate then
          let widened :=
            if op = Op.add then
              indexName ++ "+(" ++ writerT stopVal ++ " - " ++ writerT startVal ++ ")"
            else
              indexName ++ "-(" ++ writerT stopVal ++ " - " ++ writerT startVal ++ ")"
          if indexName ∈ privateList then
            Except.ok (indexStrings ++ [widened], firstprivateList)
          else if indexName ∈ firstprivateList then
            Except.ok (indexStrings ++ [widened], firstprivateList)
          else
            Except.ok (indexStrings ++ [widened], firstprivateList ++ [indexName])
        else
          Except.error (PsyError.generationError
            "Shared variable access used as an index inside an OMPTaskDirective which is not supported")
    | _, _ =>
        Except.error (PsyError.generationError
          "Children of BinaryOperation are of unexpected types, expected one Reference and one Literal when used as an index inside an OMPTaskDirective")

/-- The index loop of the shared-array branch of
OMPTaskDirective.handle_readonly_reference (source lines 742 to 775).
Each index must be of exact type Reference (a parallel-private name,
possibly promoted to firstprivate) or of exact type BinaryOperation
(delegated to handle_binary_op); anything else, including a Literal,
raises GenerationError.  Returns (index_list, firstprivate_list). -/
def processReadIndices (indices : List TNode)
    (firstprivateList privateList parallelPrivate : List String)
    (startVal stopVal : TNode) :
    Except PsyError (List String × List String) :=
  indices.foldlM
    (fun (acc : List String × List String) index =>
      match index with
      | TNode.reference indexName =>
          if indexName ∈ parallelPrivate then
            if indexName ∈ privateList then
              Except.ok (acc.1 ++ [indexName], acc.2)
            else if indexName ∈ acc.2 then
              Except.ok (acc.1 ++ [indexName], acc.2)
            else
              Except.ok (acc.1 ++ [indexName], acc.2 ++ [indexName])
          else
            Except.error (PsyError.generationError
              "Shared variable access used as an index inside an OMPTaskDirective which is not supported")
      | TNode.binaryOperation op a b =>
          handleBinaryOp op a b acc.1 acc.2 privateList parallelPrivate
            startVal stopVal
      | _ =>
          Except.error (PsyError.generationError
            "object is not allowed to appear in an Array Index expression inside an OMPTaskDirective"))
    ([], firstprivateList)

/-- The ArrayReference / ArrayOfStructuresReference branch of
handle_readonly_reference.  Note that in the source the final
in_list.append of the dependence clause string stands outside the
if is_private / else block and therefore runs in both cases; in the private
case index_list is still empty, so the appended token is the array name
followed by empty parentheses. -/
def handleReadArrayLike (name : String) (indices : List TNode)
    (st : ClauseLists) (parallelPrivate : List String)
    (startVal stopVal : TNode) : Except PsyError ClauseLists := do
  let isPrivate := name ∈ parallelPrivate
  let (indexList, st) ←
    if isPrivate then
      pure (([] : List String),
        if name ∉ st.privateList ∧ name ∉ st.firstprivateList then
          { st with firstprivateList := st.firstprivateList ++ [name] }
        else st)
    else do
      let (il, fp) ← processReadIndices indices st.firstprivateList
        st.privateList parallelPrivate startVal stopVal
      pure (il, { st with firstprivateList := fp })
  let dclause := name ++ "(" ++ joinCommaSp indexList ++ ")"
  pure { st with inList := st.inList ++ [dclause] }

/-- OMPTaskDirective.handle_readonly_reference: classify a read-only
reference inside the task region and record the clause entries it
contributes.  Nodes that are not references (the source has no else
branch) leave the state unchanged. -/
def handleReadonlyReference (ref : TNode) (st : ClauseLists)
    (parallelPrivate : List String) (startVal stopVal stepVal : TNode) :
    Except PsyError ClauseLists :=
  match ref with
  | TNode.arrayReference name indices =>
      handleReadArrayLike name indices st parallelPrivate startVal stopVal
  | TNode.aosReference name indices =>
      handleReadArrayLike name indices st parallelPrivate startVal stopVal
  | TNode.structureReference name =>
      -- the source applies the writer to the symbol name string, which
      -- renders the name itself
      if name ∈ parallelPrivate then
        Except.ok
          (if name ∉ st.privateList ∧ name ∉ st.firstprivateList then
            { st with firstprivateList := st.firstprivateList ++ [name] }
          else st)
      else
        Except.ok
          (if name ∉ st.inList then
            { st with inList := st.inList ++ [name] }
          else st)
  | TNode.reference name =>
      if name ∈ parallelPrivate then
        Except.ok
          (if name ∉ st.privateList ∧ name ∉ st.firstprivateList then
            { st with firstprivateList := st.firstprivateList ++ [name] }
          else st)
      else
        Except.ok
          (if name ∉ st.inList then
            { st with inList := st.inList ++ [name] }
          else st)
  | _ => Except.ok st

/-- Statements collected by schedule.walk((Assignment, IfBlock, Loop)) in
compute_clauses.  IfBlock bodies and Loop bodies contain further
statements; expression children are TNode values. -/
inductive TStmt where
  | assignment (lhs rhs : TNode)
  | ifBlock (condition : TNode) (thenBody elseBody : List TStmt)
  | loop (var : String) (start stop step : TNode) (body : List TStmt)

mutual
/-- Depth-first preorder walk collecting every Assignment, IfBlock and
Loop node of a statement subtree, as node.walk does in the source. -/
def walkStmts : TStmt → List TStmt
  | TStmt.assignment l r => [TStmt.assignment l r]
  | TStmt.ifBlock c t e =>
      TStmt.ifBlock c t e :: (walkStmtsList t ++ walkStmtsList e)
  | TStmt.loop v s p q b =>
      TStmt.loop v s p q b :: walkStmtsList b

/-- walkStmts over a list of statements, left to right. -/
def walkStmtsList : List TStmt → List TStmt
  | [] => []
  | x :: xs => walkStmts x ++ walkStmtsList xs
end

/-- The index loop of the ArrayReference left-hand-side branch of
compute_clauses (source lines 1048 to 1070).  Unlike the read-only path,
this loop accepts Literal indices as plain values and matches any
Reference subclass (isinstance rather than an exact type test); the
loop_reference flag computed there is dead and is not modelled.  Returns
(index_strings, firstprivate_list). -/
def processLhsIndices (indices : List TNode)
    (firstprivateList privateList parallelPrivate : List String)
    (startVal stopVal : TNode) :
    Except PsyError (List String × List String) :=
  indices.foldlM
    (fun (acc : List String × List String) index =>
      match index with
      | TNode.literal v => Except.ok (acc.1 ++ [v], acc.2)
      | TNode.reference _ | TNode.arrayReference _ _
      | TNode.structureReference _ | TNode.aosReference _ _ =>
          Except.ok (acc.1 ++ [writerT index], acc.2)
      | TNode.binaryOperation op a b =>
          handleBinaryOp op a b acc.1 acc.2 privateList parallelPrivate
            startVal stopVal)
    ([], firstprivateList)

/-- Handling of an Assignment left-hand side in compute_clauses.  An
ArrayReference that is parallel-private hits the bare assert False of the
source (AssertionError); an ArrayOfStructuresReference iterates the list
of per-component index groups, so each iteration sees a list object,
which matches none of the allowed index classes and always raises
GenerationError (after the same assert False check); a StructureReference
or plain Reference that is not parallel-private is added to the shared
list and, as a bare name, to the out list; a parallel-private scalar
left-hand side is silently skipped. -/
def processAssignLhs (lhs : TNode) (st : ClauseLists)
    (parallelPrivate : List String) (startVal stopVal : TNode) :
    Except PsyError ClauseLists :=
  match lhs with
  | TNode.arrayReference name indices => do
      if name ∈ parallelPrivate then
        Except.error PsyError.assertionError
      else do
        let (indexStrings, fp) ← processLhsIndices indices
          st.firstprivateList st.privateList parallelPrivate startVal stopVal
        let dependClause := name ++ "(" ++ joinCommaSp indexStrings ++ ")"
        let shared :=
          if name ∈ st.sharedList then st.sharedList else st.sharedList ++ [name]
        let outs :=
          if dependClause ∈ st.outList then st.outList
          else st.outList ++ [dependClause]
        Except.ok { st with firstprivateList := fp, sharedList := shared,
                            outList := outs }
  | TNode.aosReference name _ =>
      if name ∈ parallelPrivate then
        Except.error PsyError.assertionError
      else
        Except.error (PsyError.generationError
          "object is not allowed to appear in an Array Index expression inside an OMPTaskDirective")
  | TNode.structureReference name =>
      if name ∈ parallelPrivate then Except.ok st
      else
        Except.ok { st with
          sharedList :=
            if name ∈ st.sharedList then st.sharedList
            else st.sharedList ++ [name],
          outList :=
            if name ∈ st.outList then st.outList else st.outList ++ [name] }
  | TNode.reference name =>
      if name ∈ parallelPrivate then Except.ok st
      else
        Except.ok { st with
          sharedList :=
            if name ∈ st.sharedList then st.sharedList
            else st.sharedList ++ [name],
          outList :=
            if name ∈ st.outList then st.outList else st.outList ++ [name] }
  | _ => Except.ok st

/-- One iteration of the statement loop of compute_clauses. -/
def processStmt (parallelPrivate : List String)
    (startVal stopVal stepVal : TNode) (st : ClauseLists) (stmt : TStmt) :
    Except PsyError ClauseLists :=
  match stmt with
  | TStmt.assignment lhs rhs => do
      let st ← processAssignLhs lhs st parallelPrivate startVal stopVal
      (walkRefs rhs).foldlM
        (fun s r => handleReadonlyReference r s parallelPrivate
          startVal stopVal stepVal) st
  | TStmt.ifBlock condition _ _ =>
      -- only the condition is examined here; the branch statements are
      -- visited separately by the outer walk
      (walkRefs condition).foldlM
        (fun s r => handleReadonlyReference r s parallelPrivate
          startVal stopVal stepVal) st
  | TStmt.loop v s0 p0 q0 _ => do
      -- the loop variable is appended to the private list unconditionally
      let st := { st with privateList := st.privateList ++ [v] }
      let st ← (walkRefs s0).foldlM
        (fun s r => handleReadonlyReference r s parallelPrivate
          startVal stopVal stepVal) st
      let st ← (walkRefs p0).foldlM
        (fun s r => handleReadonlyReference r s parallelPrivate
          startVal stopVal stepVal) st
      (walkRefs q0).foldlM
        (fun s r => handleReadonlyReference r s parallelPrivate
          startVal stopVal stepVal) st

/-- The task region handed to compute_clauses: the directive body must hold
a single Loop node (self.children[0].children[0] in the source), whose
variable, start, stop and step expressions and body schedule are recorded
here.  parallel_private is obtained from the enclosing parallel directive
and passed separately. -/
structure TaskLoopRegion where
  loopVar : String
  startVal : TNode
  stopVal : TNode
  stepVal : TNode
  schedule : List TStmt

/-- OMPTaskDirective.compute_clauses.  Returns the five clause lists.

The stop and step header loops of the source iterate with the loop
variable named sig but test and render the variable named ref, which
still holds the last reference of the start expression: each stop or step
reference appends the writer output of that stale reference (a NameError
occurs when the start expression held no reference at all), and the
array-reference rejection in those two loops also tests the stale
reference.  The membership guard of all three header loops compares the
reference node itself against a list of strings and therefore never
fires, so a name is appended once per reference occurrence. -/
def computeClauses (parallelPrivate : List String)
    (region : TaskLoopRegion) : Except PsyError ClauseLists := do
  let st0 : ClauseLists :=
    { privateList := [region.loopVar], firstprivateList := [],
      sharedList := [], inList := [], outList := [] }
  let startRefs := walkRefs region.startVal
  let fp1 ← startRefs.foldlM
    (fun (acc : List String) r =>
      if isArrayLikeRef r then
        Except.error (PsyError.generationError
          "not yet supported in the start variable of the primary Loop in a OMPTaskDirective node")
      else Except.ok (acc ++ [writerT r]))
    st0.firstprivateList
  let staleRef := startRefs.getLast?
  let stopRefs := walkRefs region.stopVal
  let fp2 ←
    match stopRefs, staleRef with
    | [], _ => Except.ok fp1
    | _ :: _, none => Except.error PsyError.nameError
    | _ :: _, some r =>
        if isArrayLikeRef r then
          Except.error (PsyError.generationError
            "not yet supported in the stop variable of the primary Loop in a OMPTaskDirective node")
        else Except.ok (fp1 ++ stopRefs.map (fun _ => writerT r))
  let stepRefs := walkRefs region.stepVal
  let fp3 ←
    match stepRefs, staleRef with
    | [], _ => Except.ok fp2
    | _ :: _, none => Except.error PsyError.nameError
    | _ :: _, some r =>
        if isArrayLikeRef r then
          Except.error (PsyError.generationError
            "not yet supported in the step variable of the primary Loop in a OMPTaskDirective node")
        else Except.ok (fp2 ++ stepRefs.map (fun _ => writerT r))
  let st1 := { st0 with firstprivateList := fp3 }
  (walkStmtsList region.schedule).foldlM
    (processStmt parallelPrivate region.startVal region.stopVal region.stepVal)
    st1

/-! ## Claims about the task-region clause computation -/

/-- C1: the claim states that a dependence token is emitted for a name only
when that name is in the shared set, and never for a name in the private or
firstprivate lists.  The code violates this: for a task region over loop
variable i reading arr(i) where arr is private in the enclosing parallel
region, arr is captured firstprivate AND the depend-in list still receives
the token arr() because the in_list append in handle_readonly_reference
sits outside the private/shared branch. -/
theorem c1_depend_token_emitted_for_firstprivate_array :
    ∃ st : ClauseLists,
      computeClauses ["arr", "i"]
        { loopVar := "i", startVal := TNode.literal "1",
          stopVal := TNode.literal "10", stepVal := TNode.literal "1",
          schedule := [TStmt.assignment (TNode.reference "x")
            (TNode.arrayReference "arr" [TNode.reference "i"])] }
        = Except.ok st ∧
      "arr" ∈ st.firstprivateList ∧ "arr()" ∈ st.inList ∧
      "arr" ∉ st.sharedList := by
  refine ⟨⟨["i"], ["arr"], ["x"], ["arr()"], ["x"]⟩, rfl, ?_, ?_, ?_⟩ <;> decide

/-- C2 counterexample: the claim states that an assignment to a plain scalar
reference whose name is parallel-private raises an error
(InternalConsistencyError).  On the code, assigning to the
parallel-private scalar x inside the task raises nothing: compute_clauses
returns normally and adds x to neither the shared set nor the write-set. -/
theorem c2_private_scalar_lhs_no_error :
    computeClauses ["x", "i"]
      { loopVar := "i", startVal := TNode.literal "1",
        stopVal := TNode.literal "10", stepVal := TNode.literal "1",
        schedule := [TStmt.assignment (TNode.reference "x")
          (TNode.literal "1")] }
      = Except.ok ⟨["i"], [], [], [], []⟩ := rfl

/-- C2 amended: for an assignment statement whose left-hand side is a plain
scalar reference, if the referenced name is in the enclosing parallel
region private set the statement contributes nothing (no error is raised
and no clause entry is added); otherwise the name is appended to the
shared list and to the write-set (depend-out) list, each unless already
present. -/
theorem c2_scalar_lhs_assignment (parallelPrivate : List String)
    (startVal stopVal stepVal : TNode) (st : ClauseLists)
    (name v : String) :
    processStmt parallelPrivate startVal stopVal stepVal st
        (TStmt.assignment (TNode.reference name) (TNode.literal v))
      = Except.ok
        (if name ∈ parallelPrivate then st
         else { st with
           sharedList :=
             if name ∈ st.sharedList then st.sharedList
             else st.sharedList ++ [name],
           outList :=
             if name ∈ st.outList then st.outList
             else st.outList ++ [name] }) := by
  by_cases h : name ∈ parallelPrivate <;>
    simp [processStmt, processAssignLhs, walkRefs, h, List.foldlM, Except.bind]

/-- C3: the claim states that references in the stop and step header
expressions of the task loop are added to the firstprivate list just as
for the start expression, and that an array reference in any of the three
positions raises an error.  The code loops over the stop and step
references with an unused variable and keeps testing and rendering the
stale last start reference, so: for start a, stop n, the firstprivate
list ends as a twice and n is never captured; and an array reference in
the stop position raises no error at all. -/
theorem c3_stop_step_header_refs_mishandled :
    computeClauses []
        { loopVar := "i", startVal := TNode.reference "a",
          stopVal := TNode.reference "n", stepVal := TNode.literal "1",
          schedule := [] }
      = Except.ok ⟨["i"], ["a", "a"], [], [], []⟩ ∧
    "n" ∉ (["a", "a"] : List String) ∧
    computeClauses []
        { loopVar := "i", startVal := TNode.reference "a",
          stopVal := TNode.arrayReference "arr" [TNode.literal "1"],
          stepVal := TNode.literal "1", schedule := [] }
      = Except.ok ⟨["i"], ["a", "a"], [], [], []⟩ :=
  ⟨rfl, by decide, rfl⟩

/-- C5 counterexample: the claim states that for an index expression v plus
a literal, with v in the task private list, the widened dependence token
is emitted.  On the code, when v is in the task private list but not in
the parallel region private list, handle_binary_op raises GenerationError
instead of emitting any token. -/
theorem c5_private_index_not_widened_without_parallel_private :
    handleBinaryOp Op.add (TNode.reference "v") (TNode.literal "1")
        [] [] ["v"] [] (TNode.literal "1") (TNode.literal "10")
      = Except.error (PsyError.generationError
          "Shared variable access used as an index inside an OMPTaskDirective which is not supported") := rfl

/-- C5 amended: for an index expression of the form Reference plus-or-minus
Literal whose referenced name is in the enclosing parallel region private
set, the emitted dependence-token index replaces the literal offset with
the full iteration span: v+(loop_stop - loop_start) under addition and
v-(loop_stop - loop_start) under subtraction, identically in all three
sub-cases (v already task-private, v already firstprivate, or v promoted
to firstprivate on first sight); a name outside the parallel-private set
raises GenerationError instead, even when it is in the task private or
firstprivate list. -/
theorem c5_affine_widening_parallel_private (name lit : String)
    (indexStrings firstprivateList privateList parallelPrivate : List String)
    (startVal stopVal : TNode) (h : name ∈ parallelPrivate) :
    handleBinaryOp Op.add (TNode.reference name) (TNode.literal lit)
        indexStrings firstprivateList privateList parallelPrivate
        startVal stopVal
      = Except.ok (indexStrings ++
          [name ++ "+(" ++ writerT stopVal ++ " - " ++ writerT startVal ++ ")"],
          if name ∈ privateList ∨ name ∈ firstprivateList then firstprivateList
          else firstprivateList ++ [name]) ∧
    handleBinaryOp Op.sub (TNode.reference name) (TNode.literal lit)
        indexStrings firstprivateList privateList parallelPrivate
        startVal stopVal
      = Except.ok (indexStrings ++
          [name ++ "-(" ++ writerT stopVal ++ " - " ++ writerT startVal ++ ")"],
          if name ∈ privateList ∨ name ∈ firstprivateList then firstprivateList
          else firstprivateList ++ [name]) := by
  constructor <;>
    · by_cases h1 : name ∈ privateList <;>
        by_cases h2 : name ∈ firstprivateList <;>
          simp [handleBinaryOp, h, h1, h2]

/-- C5 witness: the amended theorem applied at a concrete input. -/
theorem c5_affine_widening_parallel_private_witness :
    "i" ∈ ["i", "arr"] ∧
    handleBinaryOp Op.add (TNode.reference "i") (TNode.literal "1")
        [] [] [] ["i", "arr"] (TNode.literal "1") (TNode.reference "n")
      = Except.ok (["i+(n - 1)"], ["i"]) :=
  ⟨by decide,
   by
    have h := (c5_affine_widening_parallel_private "i" "1" [] [] [] ["i", "arr"]
      (TNode.literal "1") (TNode.reference "n") (by decide)).1
    simpa using h⟩

/-! ## Parallel-region scalar privatisation (OMPParallelDirective._get_private_list) -/

/-- Access modes recorded by the variable-access analysis. -/
inductive AccType where
  | read
  | write
  | readwrite
  | inc
  | sum
  deriving Repr, DecidableEq

/-- Kinds of node met when walking upward from an accessing node looking
for a Loop or the InvokeSchedule (the region top). -/
inductive AncKind where
  | loopNode
  | invokeSchedule
  | otherNode
  deriving Repr, DecidableEq

/-- One recorded access of a signature: whether the access has array
indices, its access type, and the chain of node kinds from the accessing
node itself upward to the tree root (include_self ordering: the node
first, then its parent, and so on).  An empty chain models a node with no
parent, the end of a called kernel. -/
structure Access where
  isArray : Bool
  accessType : AccType
  ancestorChain : List AncKind
  deriving Repr, DecidableEq

/-- Modelled from the spec: Node.ancestor((Loop, InvokeSchedule),
include_self=True) of the IR node model, walking the ancestor chain upward
and returning the first node that is a Loop or an InvokeSchedule. -/
def firstLoopOrSchedule (chain : List AncKind) : Option AncKind :=
  chain.find? (fun k => k == AncKind.loopNode || k == AncKind.invokeSchedule)

/-- The per-signature decision of _get_private_list: the first access must
be scalar; a signature with a single access is skipped; if the first
access is a write and its nearest Loop-or-InvokeSchedule ancestor is a
Loop, the variable is made private.  The source never reaches this code
with an empty access list (VariablesAccessInfo records a signature only
when it has at least one access); an empty list is mapped to false. -/
def decidePrivate : List Access → Bool
  | [] => false
  | a :: rest =>
    if a.isArray then false
    else if rest.isEmpty then false
    else if a.accessType == AccType.write then
      match firstLoopOrSchedule a.ancestorChain with
      | some AncKind.loopNode => true
      | _ => false
    else false

/-- Python set insertion modelled on lists: append when not yet present. -/
def setInsert (l : List String) (x : String) : List String :=
  if x ∈ l then l else l ++ [x]

/-- Accumulates a list into a duplicate-free list, first occurrence kept,
modelling the Python set built by _get_private_list. -/
def toSetList (l : List String) : List String :=
  l.foldl setInsert []

/-- Insertion into a sorted list of strings. -/
def insertSorted (x : String) : List String → List String
  | [] => [x]
  | y :: ys => if x ≤ y then x :: y :: ys else y :: insertSorted x ys

/-- Insertion sort on strings, modelling list.sort() applied to the
result set for reproducible output. -/
def sortStrings : List String → List String
  | [] => []
  | x :: xs => insertSorted x (sortStrings xs)

/-- OMPParallelDirective._get_private_list.  kernelLocalVars holds the
local_vars() names of the kernels called in the region (InternalError when
a kernel reports an unnamed local); accessInfo holds, per signature, the
chronologically ordered accesses recorded for the region.  The result is
the sorted, duplicate-free list of lower-cased private names. -/
def getPrivateList (kernelLocalVars : List String)
    (accessInfo : List (String × List Access)) :
    Except PsyError (List String) :=
  if kernelLocalVars.any (· == "") then
    Except.error (PsyError.internalError
      "call has a local variable but its name is not set")
  else
    let fromKernels := kernelLocalVars.map String.toLower
    let fromScalars :=
      (accessInfo.filter (fun p => decidePrivate p.2)).map
        (fun p => String.toLower p.1)
    Except.ok (sortStrings (toSetList (fromKernels ++ fromScalars)))

/-- C4: scalar privatisation in a parallel region.  First part: for a
region with no kernel locals and a single accessed signature, the private
list holds exactly the lower-cased name when decidePrivate accepts its
access list, and is empty otherwise.  Second part: decidePrivate accepts
exactly the access lists with at least two accesses whose first access is
a scalar write whose nearest Loop-or-schedule ancestor is a Loop; in
particular a single access is never private, a first read is never
private, and a first write whose upward search meets the region schedule
first (a write directly in the region body, outside any loop) is never
private. -/
theorem c4_scalar_privatisation :
    (∀ (name : String) (accs : List Access),
      getPrivateList [] [(name, accs)]
        = Except.ok (if decidePrivate accs then [name.toLower] else [])) ∧
    (∀ accs : List Access,
      decidePrivate accs = true ↔
        ∃ a rest, accs = a :: rest ∧ rest ≠ [] ∧ a.isArray = false ∧
          a.accessType = AccType.write ∧
          firstLoopOrSchedule a.ancestorChain = some AncKind.loopNode) := by
  constructor
  · intro name accs
    by_cases h : decidePrivate accs <;>
      simp [getPrivateList, h, toSetList, setInsert, sortStrings, insertSorted,
        List.foldl]
  · intro accs
    constructor
    · intro h
      match accs with
      | [] => simp [decidePrivate] at h
      | a :: rest =>
          refine ⟨a, rest, rfl, ?_, ?_, ?_, ?_⟩ <;>
            by_cases h1 : a.isArray <;>
              by_cases h2 : rest.isEmpty <;>
                by_cases h3 : a.accessType == AccType.write <;>
                  simp [decidePrivate, h1, h2, h3, List.isEmpty_iff] at h ⊢ <;>
                    first
                      | (rcases hf : firstLoopOrSchedule a.ancestorChain with _ | k
                         · simp [hf] at h
                         · cases k <;> simp [hf] at h <;> simp_all)
                      | simp_all
    · rintro ⟨a, rest, rfl, hne, harr, hw, hloop⟩
      simp [decidePrivate, harr, hw, hloop, List.isEmpty_iff, hne]

/-! ## Array access model (ArrayMixin of array_mixin.py)

A structure access is a base symbol, the index group attached to the base
(empty for a plain reference, non-empty for an array or
array-of-structures reference), and a chain of members, each with its own
index group.  A dimension entry is either a single index expression or a
Range with start, stop and step, matching the DataNode-or-Range child rule
of the mixin. -/

/-- Scalar intrinsic kinds of literal datatypes. -/
inductive Intrinsic where
  | integer
  | real
  | boolean
  | character
  deriving Repr, DecidableEq

/-- Binary operators appearing in bound expressions. -/
inductive BOp where
  | lbound
  | ubound
  | add
  | sub
  deriving Repr, DecidableEq

mutual
/-- Expressions appearing as array indices and range bounds. -/
inductive AExpr where
  | literal : String → Intrinsic → AExpr
  | ref : SAccess → AExpr
  | binop : BOp → AExpr → AExpr → AExpr

/-- One dimension entry of an index group. -/
inductive AIdx where
  | expr : AExpr → AIdx
  | range : AExpr → AExpr → AExpr → AIdx

/-- A whole reference: base symbol name, base index group, member chain. -/
inductive SAccess where
  | mk : String → List AIdx → List AMember → SAccess

/-- A member of a structure access: component name and index group. -/
inductive AMember where
  | mk : String → List AIdx → AMember
end

/-- Base symbol name of an access. -/
def SAccess.base : SAccess → String
  | SAccess.mk b _ _ => b

/-- Base index group of an access. -/
def SAccess.baseIndices : SAccess → List AIdx
  | SAccess.mk _ i _ => i

/-- Member chain of an access. -/
def SAccess.members : SAccess → List AMember
  | SAccess.mk _ _ m => m

/-- Component name of a member. -/
def AMember.mname : AMember → String
  | AMember.mk n _ => n

/-- Index group of a member. -/
def AMember.mindices : AMember → List AIdx
  | AMember.mk _ i => i

mutual
/-- Modelled from the spec: the backend FortranWriter used by
_matching_access to render index expressions to comparable text. -/
def writeAExpr : AExpr → String
  | AExpr.literal v _ => v
  | AExpr.ref r => writeSAccess r
  | AExpr.binop op a b =>
      match op with
      | BOp.lbound => "LBOUND(" ++ writeAExpr a ++ "," ++ writeAExpr b ++ ")"
      | BOp.ubound => "UBOUND(" ++ writeAExpr a ++ "," ++ writeAExpr b ++ ")"
      | BOp.add => writeAExpr a ++ " + " ++ writeAExpr b
      | BOp.sub => writeAExpr a ++ " - " ++ writeAExpr b

/-- Renders one dimension entry. -/
def writeAIdx : AIdx → String
  | AIdx.expr e => writeAExpr e
  | AIdx.range a b s =>
      writeAExpr a ++ ":" ++ writeAExpr b ++ ":" ++ writeAExpr s

/-- Renders a whole access. -/
def writeSAccess : SAccess → String
  | SAccess.mk b bIdx mems =>
      b ++ writeIdxGroup bIdx ++ writeMemberChain mems

/-- Renders a parenthesised index group (nothing when empty). -/
def writeIdxGroup : List AIdx → String
  | [] => ""
  | i :: is => "(" ++ writeAIdx i ++ writeIdxRest is ++ ")"

/-- Renders the remaining comma-separated indices of a group. -/
def writeIdxRest : List AIdx → String
  | [] => ""
  | i :: is => "," ++ writeAIdx i ++ writeIdxRest is

/-- Renders a member chain. -/
def writeMemberChain : List AMember → String
  | [] => ""
  | AMember.mk n idx :: ms =>
      "%" ++ n ++ writeIdxGroup idx ++ writeMemberChain ms
end

/-- Position of the ArrayMixin instance within its access: either the
whole-reference node itself (an ArrayReference or
ArrayOfStructuresReference, which is an instance of Reference), or the
k-th member of the chain, counted from the base (an ArrayMember). -/
inductive MixinPos where
  | base
  | member (k : Nat)
  deriving Repr, DecidableEq

/-- The indices property of the mixin node at the given position. -/
def mixinIndices (acc : SAccess) : MixinPos → List AIdx
  | MixinPos.base => acc.baseIndices
  | MixinPos.member k => (acc.members.getD k (AMember.mk "" [])).mindices

/-- ArrayMixin._matching_access: when the mixin node is itself a Reference,
compare base symbol names.  Otherwise the node is a member at depth k+1
inside its parent reference (the source walks up to the parent Reference
counting the depth; in this closed representation the parent always
exists, so the no-parent early False return of the source is
unreachable); the signatures of the two accesses are compared to that
depth plus one, and the index groups are compared, as rendered text, up
to but excluding the innermost group of the mixin node. -/
def matchingAccess (acc : SAccess) (pos : MixinPos) (node : SAccess) : Bool :=
  match pos with
  | MixinPos.base => acc.base == node.base
  | MixinPos.member k =>
    let depth := k + 1
    let selfSig := acc.base :: acc.members.map AMember.mname
    let selfIdxs := acc.baseIndices :: acc.members.map AMember.mindices
    let nodeSig := node.base :: node.members.map AMember.mname
    let nodeIdxs := node.baseIndices :: node.members.map AMember.mindices
    if selfSig.take (depth + 1) = nodeSig.take (depth + 1) then
      ((selfIdxs.take depth).zip (nodeIdxs.take depth)).all
        (fun p =>
          String.join (p.1.map writeAIdx) == String.join (p.2.map writeAIdx))
    else false

/-- ArrayMixin._validate_index: ValueError when the index is not below the
number of dimensions (the TypeError branch for a non-integer argument is
excluded by typing). -/
def validateIndex (indices : List AIdx) (index : Nat) :
    Except PsyError Unit :=
  if index + 1 > indices.length then Except.error PsyError.valueError
  else Except.ok ()

/-- ArrayMixin.is_lower_bound: the dimension must be a Range whose start is
a LBOUND BinaryOperation on a Reference matching this access, with an
integer Literal second argument equal to index+1. -/
def isLowerBound (acc : SAccess) (pos : MixinPos) (index : Nat) :
    Except PsyError Bool := do
  let idxs := mixinIndices acc pos
  let _ ← validateIndex idxs index
  match idxs.get? index with
  | some (AIdx.range start _ _) =>
      match start with
      | AExpr.binop BOp.lbound c0 c1 =>
          match c0 with
          | AExpr.ref r =>
              if matchingAccess acc pos r then
                match c1 with
                | AExpr.literal v Intrinsic.integer =>
                    pure (v == toString (index + 1))
                | _ => pure false
              else pure false
          | _ => pure false
      | _ => pure false
  | _ => pure false

/-- ArrayMixin.is_upper_bound: as is_lower_bound, for the Range stop and
the UBOUND operator. -/
def isUpperBound (acc : SAccess) (pos : MixinPos) (index : Nat) :
    Except PsyError Bool := do
  let idxs := mixinIndices acc pos
  let _ ← validateIndex idxs index
  match idxs.get? index with
  | some (AIdx.range _ stop _) =>
      match stop with
      | AExpr.binop BOp.ubound c0 c1 =>
          match c0 with
          | AExpr.ref r =>
              if matchingAccess acc pos r then
                match c1 with
                | AExpr.literal v Intrinsic.integer =>
                    pure (v == toString (index + 1))
                | _ => pure false
              else pure false
          | _ => pure false
      | _ => pure false
  | _ => pure false

/-- ArrayMixin.is_full_range: the dimension is a Range, is_lower_bound and
is_upper_bound both hold, and the step is the integer Literal 1. -/
def isFullRange (acc : SAccess) (pos : MixinPos) (index : Nat) :
    Except PsyError Bool := do
  let idxs := mixinIndices acc pos
  let _ ← validateIndex idxs index
  match idxs.get? index with
  | some (AIdx.range _ _ step) => do
      let lb ← isLowerBound acc pos index
      let ub ← isUpperBound acc pos index
      if lb && ub then
        match step with
        | AExpr.literal v Intrinsic.integer => pure (v == "1")
        | _ => pure false
      else pure false
  | _ => pure false

/-- A dimension entry running from LBOUND(base, d+1) to UBOUND(base, d+1)
with the given literal step. -/
def boundedRange (base : String) (d : Nat) (step : String) : AIdx :=
  AIdx.range
    (AExpr.binop BOp.lbound (AExpr.ref (SAccess.mk base [] []))
      (AExpr.literal (toString (d + 1)) Intrinsic.integer))
    (AExpr.binop BOp.ubound (AExpr.ref (SAccess.mk base [] []))
      (AExpr.literal (toString (d + 1)) Intrinsic.integer))
    (AExpr.literal step Intrinsic.integer)

/-- C6: is_full_range on an array reference with base b is true for a
dimension d holding a Range from LBOUND(b, d+1) to UBOUND(b, d+1) with
literal step 1; it is false when the step literal is 2, and false when
the bound calls name a different base symbol c. -/
theorem c6_is_full_range (b c : String) (d : Nat)
    (idxs1 idxs2 idxs3 : List AIdx)
    (h1 : idxs1.get? d = some (boundedRange b d "1"))
    (h2 : idxs2.get? d = some (boundedRange b d "2"))
    (h3 : idxs3.get? d = some (boundedRange c d "1"))
    (hcb : c ≠ b) :
    isFullRange (SAccess.mk b idxs1 []) MixinPos.base d = Except.ok true ∧
    isFullRange (SAccess.mk b idxs2 []) MixinPos.base d = Except.ok false ∧
    isFullRange (SAccess.mk b idxs3 []) MixinPos.base d = Except.ok false := by
  obtain ⟨hl1, -⟩ := List.get?_eq_some.mp h1
  obtain ⟨hl2, -⟩ := List.get?_eq_some.mp h2
  obtain ⟨hl3, -⟩ := List.get?_eq_some.mp h3
  have hd1 : ¬ (d + 1 > idxs1.length) := by omega
  have hd2 : ¬ (d + 1 > idxs2.length) := by omega
  have hd3 : ¬ (d + 1 > idxs3.length) := by omega
  have hbc : (b == c) = false := beq_eq_false_iff_ne.mpr (Ne.symm hcb)
  simp only [List.get?_eq_getElem?] at h1 h2 h3
  refine ⟨?_, ?_, ?_⟩ <;>
    simp [isFullRange, isLowerBound, isUpperBound, mixinIndices,
      SAccess.baseIndices, SAccess.base, validateIndex, hd1, hd2, hd3,
      h1, h2, h3, boundedRange, matchingAccess, Except.bind, hbc] <;> rfl

/-- C6 witness: the theorem applied at base a, dimension 0, with the
mismatching bound base z. -/
theorem c6_is_full_range_witness :
    isFullRange (SAccess.mk "a" [boundedRange "a" 0 "1"] [])
      MixinPos.base 0 = Except.ok true ∧
    isFullRange (SAccess.mk "a" [boundedRange "a" 0 "2"] [])
      MixinPos.base 0 = Except.ok false ∧
    isFullRange (SAccess.mk "a" [boundedRange "z" 0 "1"] [])
      MixinPos.base 0 = Except.ok false :=
  c6_is_full_range "a" "z" 0 [boundedRange "a" 0 "1"]
    [boundedRange "a" 0 "2"] [boundedRange "z" 0 "1"] rfl rfl rfl
    (by decide)

/-- The access a(3)%b%c(:), with the mixin instance sitting on the
innermost array member c (depth 2 within the parent reference). -/
def accessA3bc : SAccess :=
  SAccess.mk "a" [AIdx.expr (AExpr.literal "3" Intrinsic.integer)]
    [AMember.mk "b" [], AMember.mk "c" [boundedRange "a" 0 "1"]]

/-- C7 counterexample: the claim states that _matching_access ignores the
index expressions on the outer components, so that a(3)%b%c(:) matches
the bound argument a(2)%b%c.  On the code the outer index groups are
compared textually up to the depth of the mixin node, so the outer
indices 3 and 2 make the comparison fail. -/
theorem c7_outer_indices_do_prevent_match :
    matchingAccess accessA3bc (MixinPos.member 1)
        (SAccess.mk "a" [AIdx.expr (AExpr.literal "2" Intrinsic.integer)]
          [AMember.mk "b" [], AMember.mk "c" []])
      = false := rfl

/-- C7 amended: _matching_access compares the sequence of component names
up to the depth of the access plus one and ignores index expressions only
on the innermost member, but it does compare the rendered index
expressions of all outer components: a(3)%b%c(:) matches a(3)%b%c (and
still matches when the bound argument carries its own innermost indices,
a(3)%b%c(7)), but matches neither a(2)%b%c (outer index differs) nor
a(2)%b2%c (component name differs). -/
theorem c7_matching_access_component_and_outer_indices :
    matchingAccess accessA3bc (MixinPos.member 1)
        (SAccess.mk "a" [AIdx.expr (AExpr.literal "3" Intrinsic.integer)]
          [AMember.mk "b" [], AMember.mk "c" []])
      = true ∧
    matchingAccess accessA3bc (MixinPos.member 1)
        (SAccess.mk "a" [AIdx.expr (AExpr.literal "3" Intrinsic.integer)]
          [AMember.mk "b" [],
           AMember.mk "c" [AIdx.expr (AExpr.literal "7" Intrinsic.integer)]])
      = true ∧
    matchingAccess accessA3bc (MixinPos.member 1)
        (SAccess.mk "a" [AIdx.expr (AExpr.literal "2" Intrinsic.integer)]
          [AMember.mk "b" [], AMember.mk "c" []])
      = false ∧
    matchingAccess accessA3bc (MixinPos.member 1)
        (SAccess.mk "a" [AIdx.expr (AExpr.literal "2" Intrinsic.integer)]
          [AMember.mk "b2" [], AMember.mk "c" []])
      = false :=
  ⟨rfl, rfl, rfl, rfl⟩

/-! ## Directive nesting validation -/

/-- Kinds of node that can appear on a directive ancestor chain, matching
the concrete classes tested by the isinstance checks of the validation
routines. -/
inductive DirKind where
  | ompParallel
  | ompParallelDo
  | ompSingle
  | ompMaster
  | ompTask
  | ompTaskloop
  | ompTaskwait
  | ompDo
  | ompLoop
  | ompTarget
  | loopStmt
  | scheduleNode
  | routineNode
  | otherNode
  deriving Repr, DecidableEq

/-- isinstance(k, OMPParallelDirective): OMPParallelDoDirective is a
subclass of OMPParallelDirective. -/
def isOmpParallelDirective : DirKind → Bool
  | DirKind.ompParallel => true
  | DirKind.ompParallelDo => true
  | _ => false

/-- isinstance(k, OMPParallelDoDirective). -/
def isOmpParallelDoDirective : DirKind → Bool
  | DirKind.ompParallelDo => true
  | _ => false

/-- isinstance(k, OMPSerialDirective): the concrete serial-region
directives are OMPSingleDirective and OMPMasterDirective. -/
def isOmpSerialDirective : DirKind → Bool
  | DirKind.ompSingle => true
  | DirKind.ompMaster => true
  | _ => false

/-- Modelled from the spec: Node.ancestor(T, excluding=E) of the IR node
model, walking the ancestor chain upward (nearest ancestor first) and
returning the first node whose kind is an instance of T but not of E. -/
def nodeAncestor (matchKinds excludingKinds : DirKind → Bool)
    (ancestors : List DirKind) : Option DirKind :=
  ancestors.find? (fun k => matchKinds k && !excludingKinds k)

/-- OMPSerialDirective.validate_global_constraints: GenerationError when
there is no ancestor OMPParallelDirective other than an
OMPParallelDoDirective, or when there is an ancestor OMPSerialDirective.
The routine only reads the tree; success returns the unit value and, the
embedding being a pure function of the ancestor chain, performs no
mutation. -/
def ompSerialValidateGlobalConstraints (ancestors : List DirKind) :
    Except PsyError Unit :=
  if (nodeAncestor isOmpParallelDirective isOmpParallelDoDirective
      ancestors).isNone then
    Except.error (PsyError.generationError
      "must be inside an OMP parallel region but could not find an ancestor OMPParallelDirective node")
  else if (nodeAncestor isOmpSerialDirective (fun _ => false)
      ancestors).isSome then
    Except.error (PsyError.generationError
      "must not be inside another OpenMP serial region")
  else
    Except.ok ()

/-- C8: serial-region validation succeeds exactly when the ancestor chain
holds a parallel-region directive that is not a combined parallel+loop
directive and holds no serial-region directive; in every other case it
raises GenerationError (the NestingError of the specification). -/
theorem c8_serial_region_nesting (ancestors : List DirKind) :
    ompSerialValidateGlobalConstraints ancestors = Except.ok () ↔
      ((∃ k ∈ ancestors, isOmpParallelDirective k = true ∧
          isOmpParallelDoDirective k = false) ∧
       (∀ k ∈ ancestors, isOmpSerialDirective k = false)) := by
  unfold ompSerialValidateGlobalConstraints nodeAncestor
  rcases hA : ancestors.find?
      (fun k => isOmpParallelDirective k && !isOmpParallelDoDirective k)
    with - | kp <;>
    rcases hB : ancestors.find?
        (fun k => isOmpSerialDirective k && !(fun _ : DirKind => false) k)
      with - | ks <;>
    simp only [hA, hB, Option.isNone_none, Option.isNone_some,
      Option.isSome_none, Option.isSome_some, if_true, if_false,
      Bool.true_eq_false, Bool.false_eq_true, ite_true, ite_false]
  · constructor
    · intro h; cases h
    · rintro ⟨⟨k, hk, hp, hq⟩, -⟩
      have := List.find?_eq_none.mp hA k hk
      simp [hp, hq] at this
  · constructor
    · intro h; cases h
    · rintro ⟨⟨k, hk, hp, hq⟩, -⟩
      have := List.find?_eq_none.mp hA k hk
      simp [hp, hq] at this
  · constructor
    · intro _
      constructor
      · have hmem := List.mem_of_find?_eq_some hA
        have hprop := List.find?_some hA
        rw [Bool.and_eq_true, Bool.not_eq_true'] at hprop
        exact ⟨kp, hmem, hprop.1, hprop.2⟩
      · intro k hk
        by_contra hcon
        have := List.find?_eq_none.mp hB k hk
        rw [Bool.not_eq_false] at hcon
        simp [hcon] at this
    · intro _
      trivial
  · constructor
    · intro h; cases h
    · rintro ⟨-, hall⟩
      have hmem := List.mem_of_find?_eq_some hB
      have hprop := List.find?_some hB
      have := hall ks hmem
      simp [this] at hprop

/-- Statement nodes below an OMPLoopDirective: a Loop with its body
schedule, or any other statement kind. -/
inductive LNode where
  | loop (body : List LNode)
  | other

/-- The collapse loop of OMPLoopDirective.validate_global_constraints:
for each of the collapse depths the cursor must be a Loop, and the cursor
then advances to the first child of that loop body.  The advance runs
even on the last depth, so a loop with an empty body schedule raises
IndexError (children[0] of an empty list) instead of any validation
error. -/
def collapseCheck : Nat → LNode → Except PsyError Unit
  | 0, _ => Except.ok ()
  | _ + 1, LNode.other =>
      Except.error (PsyError.generationError
        "OMPLoopDirective must have as many immediately nested loops as the collapse clause specifies")
  | n + 1, LNode.loop body =>
      match body with
      | [] => Except.error PsyError.indexError
      | c :: _ => collapseCheck n c

/-- OMPLoopDirective.validate_global_constraints: the directive body must
have exactly one child, that child must be a Loop, an OMPTargetDirective
or OMPParallelDirective ancestor must exist, and when a collapse value is
set the nested loops are checked by collapseCheck.  The ancestor test is
passed in as a flag; none models collapse=None (and Python falsiness also
skips the loop body for 0, which collapseCheck maps to the same
result). -/
def ompLoopValidateGlobalConstraints (dirBody : List LNode)
    (hasTargetOrParallelAncestor : Bool) (collapse : Option Nat) :
    Except PsyError Unit := do
  match dirBody with
  | [c] =>
      match c with
      | LNode.other =>
          Except.error (PsyError.generationError
            "OMPLoopDirective must have a Loop as child of its associated schedule")
      | LNode.loop body =>
          if !hasTargetOrParallelAncestor then
            Except.error (PsyError.generationError
              "OMPLoopDirective must be inside a OMPTargetDirective or a OMPParallelDirective")
          else
            match collapse with
            | none => Except.ok ()
            | some n => collapseCheck n (LNode.loop body)
  | _ =>
      Except.error (PsyError.generationError
        "OMPLoopDirective must have exactly one child in its associated schedule")

/-- A chain of j nested loops wrapped around the given innermost node. -/
def wrapLoops : Nat → LNode → LNode
  | 0, t => t
  | j + 1, t => LNode.loop [wrapLoops j t]

/-- collapseCheck hits the IndexError whenever the remaining collapse
depth exceeds the number of wrapping loops around an empty-bodied loop. -/
theorem collapseCheck_empty_body (j n : Nat) (h : j < n) :
    collapseCheck n (wrapLoops j (LNode.loop [])) =
      Except.error PsyError.indexError := by
  induction j generalizing n with
  | zero =>
      match n, h with
      | m + 1, _ => rfl
  | succ j ih =>
      match n, h with
      | m + 1, h =>
          have hj : j < m := Nat.lt_of_succ_lt_succ h
          simpa [wrapLoops, collapseCheck] using ih m hj

/-- C9: with a collapse clause of value n, a body consisting of j nested
loops (each the sole statement of its parent) around an innermost loop
whose body schedule is empty, with j below n, makes
validate_global_constraints fail with IndexError: it neither succeeds nor
raises the documented GenerationError, because the cursor advance indexes
the empty child list. -/
theorem c9_collapse_empty_body_index_error (j n : Nat) (h : j < n) :
    ompLoopValidateGlobalConstraints [wrapLoops j (LNode.loop [])] true
        (some n)
      = Except.error PsyError.indexError := by
  have hc := collapseCheck_empty_body j n h
  match j with
  | 0 => simpa [ompLoopValidateGlobalConstraints, wrapLoops] using hc
  | j + 1 => simpa [ompLoopValidateGlobalConstraints, wrapLoops] using hc

/-- C9 witness: one full loop around an empty-bodied loop under
collapse 2. -/
theorem c9_collapse_empty_body_index_error_witness :
    1 < 2 ∧
    ompLoopValidateGlobalConstraints [wrapLoops 1 (LNode.loop [])] true
        (some 2)
      = Except.error PsyError.indexError :=
  ⟨by decide, c9_collapse_empty_body_index_error 1 2 (by decide)⟩

/-- Children of an OMPTaskloopDirective: the body Schedule at position 0
followed by optional clause nodes. -/
inductive TaskloopChild where
  | scheduleChild
  | grainsizeClause (value : String)
  | numTasksClause (value : String)
  | nogroupClause
  deriving Repr, DecidableEq

/-- OMPTaskloopDirective._validate_child: position 0 must be a Schedule,
position 1 may be a grainsize, num_tasks or nogroup clause, position 2
only a nogroup clause. -/
def taskloopValidChild (position : Nat) (child : TaskloopChild) : Bool :=
  match position, child with
  | 0, TaskloopChild.scheduleChild => true
  | 1, TaskloopChild.grainsizeClause _ => true
  | 1, TaskloopChild.numTasksClause _ => true
  | 1, TaskloopChild.nogroupClause => true
  | 2, TaskloopChild.nogroupClause => true
  | _, _ => false

/-- Appending to the children list validates the new child at its position,
as the ChildrenList of the IR node model does (modelled from the spec:
per-kind structural validity rules checked on every mutation). -/
def validatedAppend (cs : List TaskloopChild) (c : TaskloopChild) :
    Except PsyError (List TaskloopChild) :=
  if taskloopValidChild cs.length c then Except.ok (cs ++ [c])
  else
    Except.error (PsyError.generationError "item cannot be child of this node")

/-- OMPTaskloopDirective.__init__: stores the grainsize, num_tasks and
nogroup settings, raises GenerationError when both grainsize and
num_tasks are given (before any clause child is attached), and otherwise
appends a grainsize clause, a num_tasks clause and a nogroup clause, in
that order, for each setting that is present.  The region-directive base
initialiser wraps the directive body in a Schedule at position 0, modelled
here by the initial singleton list. -/
def ompTaskloopInit (grainsize numTasks : Option Int) (nogroup : Bool) :
    Except PsyError (List TaskloopChild) := do
  if grainsize.isSome && numTasks.isSome then
    Except.error (PsyError.generationError
      "OMPTaskloopDirective must not have both grainsize and numtasks clauses specified.")
  else do
    let cs := [TaskloopChild.scheduleChild]
    let cs ←
      match grainsize with
      | some g =>
          validatedAppend cs (TaskloopChild.grainsizeClause (toString g))
      | none => pure cs
    let cs ←
      match numTasks with
      | some n => validatedAppend cs (TaskloopChild.numTasksClause (toString n))
      | none => pure cs
    if nogroup then validatedAppend cs TaskloopChild.nogroupClause
    else pure cs

/-- C10: constructing a taskloop directive with both a grainsize and a
num_tasks value raises GenerationError before any clause child is
attached, and consequently no successfully constructed taskloop directive
carries both a grainsize clause and a num_tasks clause. -/
theorem c10_taskloop_grainsize_numtasks_exclusive :
    (∀ (grainsize numTasks : Option Int) (nogroup : Bool),
      grainsize.isSome = true → numTasks.isSome = true →
        ompTaskloopInit grainsize numTasks nogroup
          = Except.error (PsyError.generationError
              "OMPTaskloopDirective must not have both grainsize and numtasks clauses specified.")) ∧
    (∀ (grainsize numTasks : Option Int) (nogroup : Bool)
        (res : List TaskloopChild),
      ompTaskloopInit grainsize numTasks nogroup = Except.ok res →
        ¬((∃ v, TaskloopChild.grainsizeClause v ∈ res) ∧
          (∃ w, TaskloopChild.numTasksClause w ∈ res))) := by
  constructor
  · rintro ⟨g⟩ ⟨n⟩ nogroup h1 h2 <;> simp at h1 h2 <;> rfl
  · rintro ⟨g⟩ ⟨n⟩ nogroup res hres <;> cases nogroup <;>
      first
        | (simp [ompTaskloopInit, validatedAppend, taskloopValidChild,
            Except.bind, Except.pure, pure, Bind.bind] at hres
           subst hres
           rintro ⟨⟨v, hv⟩, ⟨w, hw⟩⟩ <;> simp_all)
        | simp [ompTaskloopInit] at hres

/-- C10 witness: the theorem applied with both clauses requested, and with
a successful grainsize-only construction. -/
theorem c10_taskloop_grainsize_numtasks_exclusive_witness :
    ompTaskloopInit (some 1) (some 2) false
      = Except.error (PsyError.generationError
          "OMPTaskloopDirective must not have both grainsize and numtasks clauses specified.") ∧
    ¬((∃ v, TaskloopChild.grainsizeClause v ∈
        [TaskloopChild.scheduleChild, TaskloopChild.grainsizeClause "3"]) ∧
      (∃ w, TaskloopChild.numTasksClause w ∈
        [TaskloopChild.scheduleChild, TaskloopChild.grainsizeClause "3"])) :=
  ⟨c10_taskloop_grainsize_numtasks_exclusive.1 (some 1) (some 2) false
    rfl rfl,
   c10_taskloop_grainsize_numtasks_exclusive.2 (some 3) none false
    [TaskloopChild.scheduleChild, TaskloopChild.grainsizeClause "3"] rfl⟩
